import Mathlib

/-!
Shallow embedding of the expression-calculator core (tokenizer in
`src/tokens.rs`, operator registry in `src/ops.rs`, parser and evaluator in
`src/expr.rs`).  Numeric values are modelled as exact rationals: every input
appearing in the claims denotes a dyadic (or small decimal) rational on which
the `f64` operations of the source are exact, so the rational model and the
floating-point program agree on all inputs the theorems below touch.
Transcendental library functions (sqrt, exp, trig, powf, the constants e and
pi) have no exact rational meaning; they are mapped to an explicitly
unmodelled stub, and no theorem in this file depends on them.
-/

namespace Erik

/-- Character code 39, the single-quote character, used to build the error
message strings of the source verbatim. -/
def sq : String := String.singleton (Char.ofNat 39)

/-! ## Operator registry (src/ops.rs) -/

/-- Precedence classes, in the declaration order of the Rust enum
`Precedence`; the parser compares them through `as u32`, modelled by
`Precedence.toNat`. -/
inductive Precedence where
  | None | Brace | Terminator | Assign | Ternary | LogicalOr | LogicalAnd
  | BinaryOr | BinaryXor | BinaryAnd | CompareEq | CompareDiff | Shift
  | Addition | Multiply | Unary | Power
deriving Repr

/-- Numeric value of a precedence class (`precedence as u32`). -/
def Precedence.toNat : Precedence → Nat
  | .None => 0
  | .Brace => 1
  | .Terminator => 2
  | .Assign => 3
  | .Ternary => 4
  | .LogicalOr => 5
  | .LogicalAnd => 6
  | .BinaryOr => 7
  | .BinaryXor => 8
  | .BinaryAnd => 9
  | .CompareEq => 10
  | .CompareDiff => 11
  | .Shift => 12
  | .Addition => 13
  | .Multiply => 14
  | .Unary => 15
  | .Power => 16

/-- Evaluation strategies of operators (`enum OpFunction`).  `Lazy` takes the
value of the first operand and returns the index of the operand whose value
becomes the result. -/
inductive OpFunction where
  | Nullary (f : Unit → ℚ)
  | Unary (f : ℚ → ℚ)
  | Binary (f : ℚ → ℚ → ℚ)
  | Lazy (f : ℚ → Nat)
  | Invalid

/-- Descriptor of an operator or builtin function (`struct Operator`). -/
structure Operator where
  name : String
  precedence : Precedence
  arity : Nat
  is_right_associative : Bool
  function : OpFunction

def make_op (name : String) (precedence : Precedence) (arity : Nat)
    (is_right_associative : Bool) (function : OpFunction) : Operator :=
  ⟨name, precedence, arity, is_right_associative, function⟩

def make_op_0 (name : String) (precedence : Precedence) (f : Unit → ℚ) : Operator :=
  make_op name precedence 0 false (.Nullary f)

def make_op_1 (name : String) (precedence : Precedence) (f : ℚ → ℚ) : Operator :=
  make_op name precedence 1 false (.Unary f)

def make_op_2 (name : String) (precedence : Precedence) (f : ℚ → ℚ → ℚ) : Operator :=
  make_op name precedence 2 false (.Binary f)

def make_op_lazy (name : String) (precedence : Precedence) (arity : Nat)
    (f : ℚ → Nat) : Operator :=
  make_op name precedence arity false (.Lazy f)

def make_op_invalid (name : String) (precedence : Precedence) (arity : Nat)
    (is_right_associative : Bool) : Operator :=
  make_op name precedence arity is_right_associative .Invalid

/-! Value-conversion helpers of src/ops.rs. -/

/-- `fn to_bool(x: f64) -> bool { x != 0.0 }` -/
def to_bool (x : ℚ) : Bool := x != 0

/-- `fn to_float(x: bool) -> f64` -/
def to_float (x : Bool) : ℚ := if x then 1 else 0

/-- Truncation toward zero, the rounding used by Rust `as`-casts from floats
to integers. -/
def rtrunc (x : ℚ) : ℤ := if 0 ≤ x then ⌊x⌋ else ⌈x⌉

/-- Saturating cast `x as i64` (finite inputs; the rational model has no NaN
or infinities). -/
def as_i64 (x : ℚ) : ℤ := max (-(2 ^ 63)) (min (2 ^ 63 - 1) (rtrunc x))

/-- Reinterpret / narrow an integer to a signed `bits`-wide machine integer
(two's-complement wraparound). -/
def wrap (bits : Nat) (v : ℤ) : ℤ :=
  Int.emod (v + 2 ^ (bits - 1)) (2 ^ bits) - 2 ^ (bits - 1)

/-- Narrow an integer to an unsigned `bits`-wide machine integer. -/
def wrapu (bits : Nat) (v : ℤ) : ℤ := Int.emod v (2 ^ bits)

/-- `fn to_int(x: f64) -> i32 { x as i64 as i32 }` -/
def to_int (x : ℚ) : ℤ := wrap 32 (as_i64 x)

/-- `fn to_uint(x: f64) -> u32 { x as i64 as u32 }` -/
def to_uint (x : ℚ) : ℤ := wrapu 32 (as_i64 x)

/-- The two's-complement bit pattern of an i32 value, as a natural number,
used to model the Rust bitwise `| ^ &` operators on i32. -/
def i32_bits (v : ℤ) : Nat := (Int.emod v (2 ^ 32)).toNat

/-- Shift count of the shift operators: `to_int(y) & 31`.  Masking an i32
with 31 keeps its low five bits, which equals the value modulo 32. -/
def shift_amount (y : ℚ) : Nat := (Int.emod (to_int y) 32).toNat

/-- `|x, y| (to_int(x) << (to_int(y) & 31)) as f64` — left shift on i32,
bits shifted out of the 32-bit window are discarded. -/
def op_shl_fn (x y : ℚ) : ℚ := ((wrap 32 (to_int x * 2 ^ shift_amount y) : ℤ) : ℚ)

/-- `|x, y| (to_uint(x) >> (to_int(y) & 31)) as f64` — logical (zero-filling)
right shift on u32, i.e. division of the nonnegative value by 2^k. -/
def op_shr_fn (x y : ℚ) : ℚ := ((Int.ediv (to_uint x) (2 ^ shift_amount y) : ℤ) : ℚ)

/-- `|x, y| (to_int(x) >> (to_int(y) & 31)) as f64` — arithmetic
(sign-preserving) right shift on i32, i.e. floor division by 2^k (for a
positive divisor, Euclidean and floor division coincide). -/
def op_sar_fn (x y : ℚ) : ℚ := ((Int.ediv (to_int x) (2 ^ shift_amount y) : ℤ) : ℚ)

/-- `f64::rem_euclid` as implemented by the Rust standard library:
`let r = self % rhs; if r < 0.0 { r + rhs.abs() } else { r }`, where `%` is
the truncated-division remainder `fmod` (always exact in IEEE f64).  The
final addition `r + rhs.abs()` rounds in f64 while this model performs it
exactly, so the model matches the program exactly on inputs where that sum
is representable (all inputs of the theorems below), and elsewhere differs
only by that one rounding — which can bring the f64 result up to exactly
`|y|`, so no strict upper bound is asserted of the result, only its
nonnegativity, which rounding a positive exact value preserves. -/
def rem_euclid_q (x y : ℚ) : ℚ :=
  let r := x - (rtrunc (x / y) : ℚ) * y
  if r < 0 then r + |y| else r

/-- Stand-in for the f64 library functions with no exact rational meaning
(sqrt, exp, ln, log, log2, the trigonometric family and powf).  No theorem
in this file evaluates any operator built from it. -/
def float_unmodeled : ℚ → ℚ := fun _ => 0

/-- Stand-in for `f64::powf`; unmodelled, see `float_unmodeled`. -/
def powf_unmodeled : ℚ → ℚ → ℚ := fun _ _ => 0

/-- Stand-in for the f64 constants `e` and `pi`; unmodelled irrationals. -/
def float_const_unmodeled : Unit → ℚ := fun _ => 0

/-- Selector of the lazy `||` operator. -/
def or_selector (x : ℚ) : Nat := if to_bool x then 0 else 1

/-- Selector of the lazy `&&` operator. -/
def and_selector (x : ℚ) : Nat := if to_bool x then 1 else 0

/-- Selector of the fused ternary `?:` operator. -/
def ternary_selector (x : ℚ) : Nat := if to_bool x then 1 else 2

/-- `f64::round`: rounding to the nearest integer, halves away from zero. -/
def round_away (x : ℚ) : ℚ := if 0 ≤ x then (⌊x + 1/2⌋ : ℚ) else (⌈x - 1/2⌉ : ℚ)

/-- The static operator table `OPERATORS` of src/ops.rs, in source order. -/
def OPERATORS : List Operator := [
  -- Special markers that should never actually be evaluated.
  make_op_invalid "(" .Brace 0 false,
  make_op_invalid ")" .Brace 0 false,
  make_op_invalid "=" .Assign 2 false,
  -- Component parts of the ternary ?: operator.
  make_op_invalid "?" .Ternary 2 true,
  make_op_invalid ":" .Ternary 2 true,
  -- Boolean operators.
  make_op_lazy "||" .LogicalOr 2 or_selector,
  make_op_lazy "&&" .LogicalAnd 2 and_selector,
  make_op_1 "!" .Unary (fun x => to_float (!(to_bool x))),
  -- Bitwise operators.
  make_op_2 "|" .BinaryOr (fun x y => ((wrap 32 ((Nat.lor (i32_bits (to_int x)) (i32_bits (to_int y)) : ℕ) : ℤ) : ℤ) : ℚ)),
  make_op_2 "^^" .BinaryXor (fun x y => ((wrap 32 ((Nat.xor (i32_bits (to_int x)) (i32_bits (to_int y)) : ℕ) : ℤ) : ℤ) : ℚ)),
  make_op_2 "&" .BinaryAnd (fun x y => ((wrap 32 ((Nat.land (i32_bits (to_int x)) (i32_bits (to_int y)) : ℕ) : ℤ) : ℤ) : ℚ)),
  make_op_2 "<<" .Shift op_shl_fn,
  make_op_2 ">>" .Shift op_shr_fn,
  make_op_2 ">>>" .Shift op_sar_fn,
  make_op_1 "~" .Unary (fun x => ((-(to_int x) - 1 : ℤ) : ℚ)),
  -- Comparisons.
  make_op_2 "==" .CompareEq (fun x y => to_float (x == y)),
  make_op_2 "!=" .CompareEq (fun x y => to_float (x != y)),
  make_op_2 "<" .CompareDiff (fun x y => to_float (decide (x < y))),
  make_op_2 ">" .CompareDiff (fun x y => to_float (decide (x > y))),
  make_op_2 "<=" .CompareDiff (fun x y => to_float (decide (x ≤ y))),
  make_op_2 ">=" .CompareDiff (fun x y => to_float (decide (x ≥ y))),
  -- Arithmetic.
  make_op_2 "+" .Addition (fun x y => x + y),
  make_op_2 "-" .Addition (fun x y => x - y),
  make_op_2 "*" .Multiply (fun x y => x * y),
  make_op_2 "/" .Multiply (fun x y => x / y),
  make_op_2 "%" .Multiply rem_euclid_q,
  make_op_2 "^" .Power powf_unmodeled,
  -- Math functions.
  make_op_2 "max" .None (fun x y => if x > y then x else y),
  make_op_2 "min" .None (fun x y => if x < y then x else y),
  make_op_1 "sqrt" .None float_unmodeled,
  make_op_1 "exp" .None float_unmodeled,
  make_op_1 "ln" .None float_unmodeled,
  make_op_1 "log" .None float_unmodeled,
  make_op_1 "log2" .None float_unmodeled,
  make_op_1 "abs" .None (fun x => |x|),
  make_op_1 "ceil" .None (fun x => (⌈x⌉ : ℚ)),
  make_op_1 "floor" .None (fun x => (⌊x⌋ : ℚ)),
  make_op_1 "round" .None round_away,
  -- Trig.
  make_op_1 "sin" .None float_unmodeled,
  make_op_1 "cos" .None float_unmodeled,
  make_op_1 "tan" .None float_unmodeled,
  make_op_1 "sinh" .None float_unmodeled,
  make_op_1 "cosh" .None float_unmodeled,
  make_op_1 "tanh" .None float_unmodeled,
  make_op_1 "asin" .None float_unmodeled,
  make_op_1 "acos" .None float_unmodeled,
  make_op_1 "atan" .None float_unmodeled,
  make_op_1 "asinh" .None float_unmodeled,
  make_op_1 "acosh" .None float_unmodeled,
  make_op_1 "atanh" .None float_unmodeled,
  -- Casts.
  make_op_1 "i8" .None (fun x => ((wrap 8 (as_i64 x) : ℤ) : ℚ)),
  make_op_1 "u8" .None (fun x => ((wrapu 8 (as_i64 x) : ℤ) : ℚ)),
  make_op_1 "i16" .None (fun x => ((wrap 16 (as_i64 x) : ℤ) : ℚ)),
  make_op_1 "u16" .None (fun x => ((wrapu 16 (as_i64 x) : ℤ) : ℚ)),
  make_op_1 "i32" .None (fun x => ((wrap 32 (as_i64 x) : ℤ) : ℚ)),
  make_op_1 "u32" .None (fun x => ((wrapu 32 (as_i64 x) : ℤ) : ℚ)),
  -- Constants.
  make_op_0 "e" .None float_const_unmodeled,
  make_op_0 "pi" .None float_const_unmodeled]

/-- Special operator `NEGATE`, not accessible by name. -/
def NEGATE : Operator := make_op_1 "-" .Unary (fun x => -x)

/-- Special operator `TERNARY` (`?:`), not accessible by name. -/
def TERNARY : Operator := make_op_lazy "?:" .Ternary 3 ternary_selector

/-- Special operator `TERMINATOR` (named `{arnie}` in the source), not
accessible by name. -/
def TERMINATOR : Operator := make_op_invalid "\x7barnie\x7d" .Terminator 0 false

/-- `pub fn find_operator(opname: &str) -> Option<OperatorRef>` — linear
search of the table by exact name. -/
def find_operator (opname : String) : Option Operator :=
  OPERATORS.find? (fun op => op.name == opname)

/-! ## Tokenizer (src/tokens.rs)

The tokenizer state (a char iterator with one peeked char plus the
`remainder` slice) is modelled by the list of characters not yet consumed;
string slices become lists of consumed characters.  The character
classification functions of Rust (`is_alphabetic`, `is_whitespace`) are
Unicode-aware; the Lean `Char.isAlpha` / `Char.isWhitespace` used here agree
with them on the ASCII inputs of the claims. -/

/-- `enum Token` of src/tokens.rs. -/
inductive Token where
  | Number (value : ℚ)
  | Integer (value : Nat)
  | Text (value : String)
  | Operator (op : Operator)

/-- Items of the token stream: `Result<Token, String>`. -/
abbrev Tok := Except String Token

/-- Digits-and-value accumulation used by the model of `str::parse::<f64>`. -/
def digitsToNat : List Char → Nat → Nat
  | [], acc => acc
  | c :: rest, acc => digitsToNat rest (acc * 10 + (c.toNat - 48))

def allDigits (l : List Char) : Bool := l.all (fun c => c.isDigit)

/-- Model of Rust `str::parse::<f64>()` restricted to the character set a
slice produced by `read_decimal` can contain (digits, periods, `e`, a sign
after `e`), returning the exact rational value instead of performing the
final rounding to the nearest f64 (exact on every numeral in the claims). -/
def parse_f64 (s : List Char) : Option ℚ :=
  let mantissa := s.takeWhile (fun c => c ≠ 'e')
  let expPart := s.dropWhile (fun c => c ≠ 'e')
  let ip := mantissa.takeWhile (fun c => c.isDigit)
  let rest := mantissa.dropWhile (fun c => c.isDigit)
  let fp? : Option (List Char) :=
    match rest with
    | [] => some []
    | '.' :: fp => if allDigits fp then some fp else none
    | _ => none
  match fp? with
  | none => none
  | some fp =>
    if ip.isEmpty ∧ fp.isEmpty then none
    else
      let mval : ℚ := (digitsToNat (ip ++ fp) 0 : ℚ) / ((10 : ℚ) ^ fp.length)
      match expPart with
      | [] => some mval
      | _ :: expRest =>
        let signAndDigits :=
          match expRest with
          | '-' :: ds => (true, ds)
          | '+' :: ds => (false, ds)
          | ds => (false, ds)
        let ds := signAndDigits.2
        if ds.isEmpty ∨ ¬ allDigits ds then none
        else
          let e := digitsToNat ds 0
          some (if signAndDigits.1 then mval / 10 ^ e else mval * 10 ^ e)

/-- Scanning loop of `read_decimal`: accept digits and periods, and an `e`
optionally followed by `-`.  For the `-` the source calls the tokenizer's
own `next()`, which in this position always lexes exactly the one-character
`-` operator and discards it, so its net effect is consuming that one
character. -/
def read_decimal_scan_loop : Nat → List Char → List Char
  | 0, pos => pos
  | fuel + 1, pos =>
    match pos with
    | [] => []
    | c :: rest =>
      if c.isDigit ∨ c = '.' then read_decimal_scan_loop fuel rest
      else if c = 'e' then
        match rest with
        | '-' :: rest2 => read_decimal_scan_loop fuel rest2
        | _ => read_decimal_scan_loop fuel rest
      else c :: rest

/-- Entry to the scan with fuel amply covering the input (every loop
iteration of the source consumes at least one character). -/
def read_decimal_scan (pos : List Char) : List Char :=
  read_decimal_scan_loop (pos.length + 1) pos


/-- `fn read_decimal` — scan a decimal literal starting at `start_slice`
(`pos` is the position after the first, already consumed character), then
parse the accumulated slice; a failed parse is the invalid-numeric-constant
error carrying the slice. -/
def read_decimal (start_slice : List Char) (pos : List Char) :
    Except String Token × List Char :=
  let pos2 := read_decimal_scan pos
  let slice := start_slice.take (start_slice.length - pos2.length)
  match parse_f64 slice with
  | some value => (.ok (Token.Number value), pos2)
  | none =>
    (.error ("Invalid numeric constant " ++ sq ++ String.mk slice ++ sq), pos2)

/-- Model of Rust `char::to_digit(base)`. -/
def char_to_digit (base : Nat) (c : Char) : Option Nat :=
  let d :=
    if c.isDigit then some (c.toNat - 48)
    else if 'a' ≤ c ∧ c ≤ 'z' then some (c.toNat - 97 + 10)
    else if 'A' ≤ c ∧ c ≤ 'Z' then some (c.toNat - 65 + 10)
    else none
  match d with
  | some v => if v < base then some v else none
  | none => none

/-- Accumulation loop of `fn read_integer`: a u64 accumulator with
`checked_mul` (overflow at 2^64) and bitwise-or of the next digit. -/
def read_integer_loop (base : Nat) (value : Nat) :
    List Char → Except String Token × List Char
  | [] => (.ok (Token.Integer value), [])
  | c :: rest =>
    match char_to_digit base c with
    | some digit =>
      if value * base ≥ 2 ^ 64 then
        (.error ("Base " ++ toString base ++ " constant overflowed 64 bit range"), rest)
      else
        read_integer_loop base (Nat.lor (value * base) digit) rest
    | none => (.ok (Token.Integer value), c :: rest)

/-- `fn read_integer(base)` — binary or hexadecimal unsigned constant. -/
def read_integer (base : Nat) (cs : List Char) : Except String Token × List Char :=
  read_integer_loop base 0 cs

/-- `fn read_number` — a leading `0` followed by `b` or `x` switches to
`read_integer`; otherwise the literal is decimal (the first character has
been consumed by `get()`, the slice starts at the original position). -/
def read_number : List Char → Except String Token × List Char
  | '0' :: 'b' :: rest => read_integer 2 rest
  | '0' :: 'x' :: rest => read_integer 16 rest
  | c :: rest => read_decimal (c :: rest) rest
  | [] => read_decimal [] []

/-- `fn read_bareword` — consume alphabetic characters and underscores.
NOTE: faithfully to the source, digits are NOT accepted, although the
registry contains callable names with digits (log2, i8, u8, ...). -/
def read_bareword (cs : List Char) : Token × List Char :=
  let name := cs.takeWhile (fun c => c.isAlpha ∨ c = '_')
  (Token.Text (String.mk name), cs.drop name.length)

/-- Content loop of `fn read_quoted`: characters up to the matching quote,
or all remaining text when the quote is unterminated. -/
def quoted_loop (quote : Char) : List Char → List Char × List Char
  | [] => ([], [])
  | c :: rest =>
    if c = quote then ([], rest)
    else
      let r := quoted_loop quote rest
      (c :: r.1, r.2)

/-- `fn read_quoted` — the opening quote is consumed, the token text is the
run up to the matching quote. -/
def read_quoted (cs : List Char) : Token × List Char :=
  match cs with
  | quote :: rest =>
    let r := quoted_loop quote rest
    (Token.Text (String.mk r.1), r.2)
  | [] => (Token.Text "", [])

/-- `fn could_be_operator` — is the candidate a prefix of some registered
operator name? -/
def could_be_operator (s : String) : Bool :=
  OPERATORS.any (fun op => op.name.startsWith s)

/-- Munching loop of `fn read_operator`: extend the candidate one character
at a time while it remains a possible operator prefix; returns the consumed
candidate and the rest of the input. -/
def read_operator_scan (consumed : List Char) : List Char → List Char × List Char
  | [] => (consumed, [])
  | c :: rest =>
    if could_be_operator (String.mk (consumed ++ [c])) then
      read_operator_scan (consumed ++ [c]) rest
    else (consumed, c :: rest)

/-- One step of the `Iterator::next` of the tokenizer: skip whitespace, then
dispatch on the leading character (number / bareword / quoted string /
operator / single unknown character).  When the operator munch consumes
characters but the exact-name lookup fails, those characters stay consumed
and `read_unknown_character` reads the following one — faithful to the
source, where the iterator has already advanced. -/
def next_token (cs0 : List Char) : Option (Tok × List Char) :=
  let cs := cs0.dropWhile (fun c => c.isWhitespace)
  match cs with
  | [] => none
  | c :: _ =>
    if c.isDigit ∨ c = '.' then
      some (read_number cs)
    else if c.isAlpha ∨ c = '_' then
      let r := read_bareword cs
      some (.ok r.1, r.2)
    else if c = '"' ∨ c = Char.ofNat 39 then
      let r := read_quoted cs
      some (.ok r.1, r.2)
    else
      let r := read_operator_scan [] cs
      match find_operator (String.mk r.1) with
      | some op => some (.ok (Token.Operator op), r.2)
      | none =>
        -- read_unknown_character, from the already-advanced position
        match r.2 with
        | c2 :: rest2 => some (.ok (Token.Text (String.mk [c2])), rest2)
        | [] => some (.ok (Token.Text ""), [])

/-- Run the tokenizer to the end of the input.  Every call to `next_token`
that produces a token consumes at least one character on all reachable
inputs; the fuel (amply covered by `tokenize` below) only serves Lean's
termination checker. -/
def tokenize_loop : Nat → List Char → List Tok
  | 0, _ => []
  | fuel + 1, cs =>
    match next_token cs with
    | none => []
    | some (t, rest) => t :: tokenize_loop fuel rest

/-- The full token stream of an input line. -/
def tokenize (s : String) : List Tok := tokenize_loop (s.length + 1) s.data

/-! ## Parser (src/expr.rs)

The `Vec` operator stack is modelled by a list whose head is the stack top.
The parser in the source is mutually recursive with `parse_arguments`
through nested function-call arguments; the Lean model adds a fuel
parameter for termination (the `"Parser fuel exhausted."` outcome does not
exist in the source and is never reached with the fuel supplied by
`parseString`). -/

/-- `enum ExpressionNode` of src/expr.rs. -/
inductive ExpressionNode where
  | Constant (value : ℚ)
  | Operator (op : Operator) (args : List ExpressionNode)
  | Function (name : String) (args : List ExpressionNode)

/-- A user defined function: expression tree plus parameter names
(`struct Function`). -/
structure Function where
  expression : ExpressionNode
  args : List String

/-- `struct Parser`: the current-value slot and the shift/reduce stack of
(operator, pending left operand) pairs; head of the list = top of stack. -/
structure Parser where
  current : Option ExpressionNode
  stack : List (Operator × Option ExpressionNode)

/-- `fn push_constant` — two adjacent values with no operator between them
are invalid.  (The message formats the f64 with Rust `Display`; the rational
rendering differs in general but no claim touches this string.) -/
def push_constant (value : ℚ) (p : Parser) : Except String Parser :=
  if p.current.isSome then
    .error ("Invalid expression: expecting operator but got " ++ sq ++ toString value ++ sq ++ ".")
  else .ok { p with current := some (.Constant value) }

/-- `fn binary_or_ternary` — reducing a binary `?` whose right operand is an
Operator node tagged `:` merges the three operands into one fused ternary
node (the source takes the first two children of the `:` node with
`remove(0)`; a `:` node always carries exactly two children, so the final
fallback arm is unreachable). -/
def binary_or_ternary (op : Operator) (x y : ExpressionNode) : ExpressionNode :=
  match y with
  | .Operator y_op y_args =>
    if op.name = "?" ∧ y_op.name = ":" then
      match y_args with
      | a :: b :: _ => .Operator TERNARY [x, a, b]
      | _ => .Operator op [x, y]
    else .Operator op [x, y]
  | _ => .Operator op [x, y]

/-- The `stack_precedence` value inside the reduce loop of
`fn push_operator`: a non-unary, left-associative stack operator counts as
one level tighter than nominal, forcing left-to-right reduction of
equal-precedence chains. -/
def adjusted_precedence (stack_op : Operator) : Nat :=
  if stack_op.arity ≠ 1 ∧ ¬ stack_op.is_right_associative then
    stack_op.precedence.toNat + 1
  else stack_op.precedence.toNat

/-- One unary reduction step: requires a present current value and an empty
stored operand (the arity-1 arm of the reduce loop's match). -/
def reduce_unary (stack_op : Operator) (current stack_value : Option ExpressionNode) :
    Except String ExpressionNode :=
  match current, stack_value with
  | some c, none => .ok (.Operator stack_op [c])
  | _, _ =>
    .error ("Invalid expression: unary " ++ stack_op.name ++ " operator is missing an operand.")

/-- One binary reduction step: requires both operands present (the arity-2
arm of the reduce loop's match), with ternary reconstruction. -/
def reduce_binary (stack_op : Operator) (current stack_value : Option ExpressionNode) :
    Except String ExpressionNode :=
  match current, stack_value with
  | some c, some s => .ok (binary_or_ternary stack_op s c)
  | _, _ =>
    .error ("Invalid expression: binary " ++ stack_op.name ++ " operator is missing an operand.")

/-- The shift/reduce loop inside `fn push_operator`: repeatedly reduce the
stack top while it must bind before the incoming operator.  The source
dispatches on `stack_op.arity` with a `match` whose arms are 1, 2 and a
wildcard for the parenthesis fence; the if-chain below is that same
dispatch.  The boolean in the result is true when the loop hit the
`return Ok(())` of a matched close parenthesis (the fence has been popped
and the caller pushes nothing). -/
def reduce (op : Operator) :
    Option ExpressionNode → List (Operator × Option ExpressionNode) →
    Except String (Option ExpressionNode × List (Operator × Option ExpressionNode) × Bool)
  | current, [] => .ok (current, [], false)
  | current, (stack_op, stack_value) :: rest =>
    if stack_op.arity ≠ 1 ∧ op.arity = 1 then
      .ok (current, (stack_op, stack_value) :: rest, false)
    else if op.precedence.toNat ≥ adjusted_precedence stack_op then
      .ok (current, (stack_op, stack_value) :: rest, false)
    else if stack_op.arity = 1 then
      -- Unary operator.
      match reduce_unary stack_op current stack_value with
      | .error e => .error e
      | .ok n => reduce op (some n) rest
    else if stack_op.arity = 2 then
      -- Binary operator, or adjacent ? and : combining into a ternary.
      match reduce_binary stack_op current stack_value with
      | .error e => .error e
      | .ok n => reduce op (some n) rest
    else
      -- Match open and close braces.
      if stack_op.name ≠ "(" ∨ stack_value.isSome then
        .error "Invalid expression: unexpected open parenthesis."
      else if op.name = ")" then
        if current.isNone then
          .error "Invalid expression: unexpected close parenthesis."
        else .ok (current, rest, true)
      else reduce op current rest

/-- Final part of `fn push_operator` after the reduce loop: swallow a close
parenthesis (erroring when the stack is empty), push anything else. -/
def push_operator_finish (op : Operator) (p : Parser) : Except String Parser :=
  if op.name = ")" then
    if p.stack.isEmpty then
      .error "Invalid expression: too many close parentheses."
    else .ok p
  else .ok { current := none, stack := (op, p.current) :: p.stack }

/-- Body of `fn push_operator` after the unary-negate substitution: run the
reduce loop unless the operator is `(`, then push. -/
def push_operator_sub (op : Operator) (p : Parser) : Except String Parser :=
  if op.name ≠ "(" then
    match reduce op p.current p.stack with
    | .error e => .error e
    | .ok (current, stack, true) => .ok { current := current, stack := stack }
    | .ok (current, stack, false) => push_operator_finish op { current := current, stack := stack }
  else push_operator_finish op p

/-- `fn push_operator` — substitute unary negation for a subtract with an
empty current slot, then reduce and push. -/
def push_operator (op0 : Operator) (p : Parser) : Except String Parser :=
  push_operator_sub (if op0.name = "-" ∧ p.current.isNone then NEGATE else op0) p

/-- Registry-vs-function resolution of `fn push_symbol` once the argument
list has been parsed: a registry hit validates the arity, a miss builds a
Function node resolved at evaluation time. -/
def resolve_symbol (symbol : String) (args : List ExpressionNode) :
    Except String ExpressionNode :=
  match find_operator symbol with
  | some op =>
    if args.length ≠ op.arity then
      .error ("Wrong number of arguments for " ++ op.name ++ "(): expected " ++
        toString op.arity ++ " but got " ++ toString args.length ++ ".")
    else .ok (.Operator op args)
  | none => .ok (.Function symbol args)

/-- `fn peek_operator` — is the next token the given operator? -/
def peek_operator (tokens : List Tok) (opname : String) : Bool :=
  match tokens with
  | (.ok (Token.Operator op)) :: _ => op.name == opname
  | _ => false

def stack_has_open (stack : List (Operator × Option ExpressionNode)) : Bool :=
  stack.any (fun entry => entry.1.name == "(")

/-- `fn is_finished` — commas always terminate (and are consumed); in nested
context a close parenthesis terminates when no `(` is open on the stack; at
top level exhaustion of the input terminates. -/
def is_finished (p : Parser) (tokens : List Tok) (is_nested : Bool) :
    Bool × List Tok :=
  match tokens with
  | (.ok (Token.Text s)) :: rest =>
    if s = "," then (true, rest)
    else (is_finished_rest p tokens is_nested, tokens)
  | _ => (is_finished_rest p tokens is_nested, tokens)
where
  is_finished_rest (p : Parser) (tokens : List Tok) (is_nested : Bool) : Bool :=
    if is_nested then
      if peek_operator tokens ")" then ! stack_has_open p.stack else false
    else tokens.isEmpty

/-- Stack collapse at the end of `fn parse`: an empty current slot is an
error; otherwise the terminator operator forces full reduction and exactly
one stack entry must remain.  (The source `unwrap`s the stored value of
that entry; the impossible `none` case is mapped to an internal error.) -/
def finishParse (p : Parser) (tokens : List Tok) :
    Except String (ExpressionNode × List Tok) :=
  if p.current.isNone then
    .error "Invalid expression: unexpected end of input."
  else
    match push_operator TERMINATOR p with
    | .error e => .error e
    | .ok p2 =>
      match p2.stack with
      | [(_, some result)] => .ok (result, tokens)
      | [(_, none)] => .error "Internal error: terminator entry holds no value."
      | _ => .error "Invalid expression: unexpected end of input."

/-- The `while !peek_operator(")")` loop of `fn parse_arguments`; the close
parenthesis is consumed after the loop.  The recursive entry into
`pub fn parse` (nested mode) is the `parseFn` parameter, supplied by
`parseLoop` at the next smaller fuel so that the whole parser is one
structural recursion on fuel. -/
def argsLoop (parseFn : List Tok → Except String (ExpressionNode × List Tok)) :
    Nat → List ExpressionNode → List Tok → Except String (List ExpressionNode × List Tok)
  | 0, _, _ => .error "Parser fuel exhausted."
  | fuel + 1, acc, tokens =>
    if peek_operator tokens ")" then .ok (acc, tokens.drop 1)
    else
      match parseFn tokens with
      | .error e => .error e
      | .ok (arg, rest) => argsLoop parseFn fuel (acc ++ [arg]) rest

/-- `fn parse_arguments` — a parenthesised, comma-separated argument list,
each argument parsed recursively in nested mode. -/
def parse_arguments (parseFn : List Tok → Except String (ExpressionNode × List Tok))
    (fuel : Nat) (tokens : List Tok) : Except String (List ExpressionNode × List Tok) :=
  if peek_operator tokens "(" then
    argsLoop parseFn fuel [] (tokens.drop 1)
  else .ok ([], tokens)

/-- One iteration of the token-consuming loop of `pub fn parse`, threading
the parser state; also covers `fn push_symbol`, whose argument parsing
recurses into the token stream (through `parse_arguments`, which receives
the continuation `self` — the loop at the next smaller fuel).  A
`Token::Integer` cannot be handled: the `match` in the source has no arm
for it (the parser and tokenizer of the crate are out of step); the model
maps it to an internal error no claim depends on. -/
def parseLoopBody
    (self : Parser → List Tok → Bool → Except String (ExpressionNode × List Tok))
    (fuel : Nat) (p : Parser) (tokens : List Tok) (is_nested : Bool) :
    Except String (ExpressionNode × List Tok) :=
  match is_finished p tokens is_nested with
  | (true, tokens2) => finishParse p tokens2
  | (false, _) =>
    match tokens with
    | [] => .error "Invalid expression: unexpected end of input."
    | (.error e) :: _ => .error e
    | (.ok (Token.Number value)) :: rest =>
      match push_constant value p with
      | .error e => .error e
      | .ok p2 => self p2 rest is_nested
    | (.ok (Token.Integer _)) :: _ =>
      .error "Internal error: Integer token is not handled by the parser."
    | (.ok (Token.Text symbol)) :: rest =>
      -- fn push_symbol
      if p.current.isSome then
        .error ("Invalid expression: expecting operator but got " ++ sq ++ symbol ++ sq ++ ".")
      else
        match parse_arguments (fun toks => self { current := none, stack := [] } toks true) fuel rest with
        | .error e => .error e
        | .ok (args, rest2) =>
          match resolve_symbol symbol args with
          | .error e => .error e
          | .ok node => self { p with current := some node } rest2 is_nested
    | (.ok (Token.Operator op)) :: rest =>
      match push_operator op p with
      | .error e => .error e
      | .ok p2 => self p2 rest is_nested

/-- The token-consuming loop of `pub fn parse`: one structural recursion on
fuel over `parseLoopBody`. -/
def parseLoop : Nat → Parser → List Tok → Bool → Except String (ExpressionNode × List Tok)
  | 0, _, _, _ => .error "Parser fuel exhausted."
  | fuel + 1, p, tokens, is_nested => parseLoopBody (parseLoop fuel) fuel p tokens is_nested

/-- `pub fn parse` — entry point: fresh parser state, loop to completion. -/
def parse (fuel : Nat) (tokens : List Tok) (is_nested : Bool) :
    Except String (ExpressionNode × List Tok) :=
  parseLoop fuel { current := none, stack := [] } tokens is_nested

/-- Parse a whole input line, as the tests' `do_parse` does (tokenize, then
`parse(tokenizer, false)`).  The fuel exceeds anything the input length can
demand. -/
def parseString (s : String) : Except String ExpressionNode :=
  match parse (s.length * 4 + 16) (tokenize s) false with
  | .ok (e, _) => .ok e
  | .error e => .error e

/-! Tree shapes: the `fmt::Display` of ExpressionNode renders a node as
`name(child,...,child)`; `Shape` captures exactly that observable
structure. -/

/-- Observable shape of an expression tree (operator/function name plus
children, constants as values), mirroring the `Display` output used by the
parser tests. -/
inductive Shape where
  | num (value : ℚ)
  | node (name : String) (children : List Shape)

mutual

/-- The shape of an expression tree. -/
def shape : ExpressionNode → Shape
  | .Constant value => .num value
  | .Operator op args => .node op.name (shapeList args)
  | .Function name args => .node name (shapeList args)

def shapeList : List ExpressionNode → List Shape
  | [] => []
  | e :: rest => shape e :: shapeList rest

end

/-- Parse and take the shape. -/
def parseShape (s : String) : Except String Shape :=
  match parseString s with
  | .ok e => .ok (shape e)
  | .error e => .error e

/-! ## Evaluator (src/expr.rs)

The `Context` (the `HashMap` of user functions; the display-bases field of
the REPL is out of scope) is modelled as an association list, and the
`&Context` backlink stored in each `FunctionFrame` is passed as an explicit
argument instead.  Recursive user functions make the evaluator's recursion
non-structural; a fuel parameter (never exhausted on the inputs of any
theorem below — the source bounds call depth by `MAX_RECURSION` anyway)
serves Lean's termination checker, with `"Evaluator fuel exhausted."` an
outcome the source cannot produce. -/

/-- User-function table of `struct Context` (main.rs). -/
structure Context where
  functions : List (String × Function)

/-- `Context::new()`. -/
def emptyContext : Context := ⟨[]⟩

/-- `struct FunctionFrame` minus the context backlink. -/
structure FunctionFrame where
  local_names : List String
  local_values : List ℚ
  recursion_count : Nat

/-- `const MAX_RECURSION: u32 = 256;` -/
def MAX_RECURSION : Nat := 256

/-- Error used to model the panic of a Rust out-of-bounds index; unreachable
from the parser's output (see the arity invariant). -/
def panicIndexMsg : String := "Internal error: index out of bounds."

/-- `fn evaluate_operator` — dispatch on the evaluation strategy.  Lazy
evaluates the first argument only, asks the selector which argument is the
result, and never touches the others.  The recursive `eval` on child
expressions (in the frame of the caller) is the `evalFn` parameter,
supplied by `eval` below at the next smaller fuel. -/
def evaluate_operator (evalFn : ExpressionNode → FunctionFrame → Except String ℚ)
    (op : Operator) (args : List ExpressionNode) (frame : FunctionFrame) :
    Except String ℚ :=
  match op.function with
  | .Nullary f => .ok (f ())
  | .Unary f =>
    match args with
    | a :: _ =>
      match evalFn a frame with
      | .error e => .error e
      | .ok x => .ok (f x)
    | [] => .error panicIndexMsg
  | .Binary f =>
    match args with
    | a :: b :: _ =>
      match evalFn a frame with
      | .error e => .error e
      | .ok x =>
        match evalFn b frame with
        | .error e => .error e
        | .ok y => .ok (f x y)
    | _ => .error panicIndexMsg
  | .Lazy selector =>
    match args with
    | a :: _ =>
      match evalFn a frame with
      | .error e => .error e
      | .ok arg0 =>
        let which_arg := selector arg0
        if which_arg = 0 then .ok arg0
        else
          match args.get? which_arg with
          | some target => evalFn target frame
          | none => .error panicIndexMsg
    | [] => .error panicIndexMsg
  | .Invalid => .error ("Invalid use of " ++ op.name ++ " operator.")

/-- The argument-evaluation loop of `fn evaluate_function`: arguments are
evaluated left to right in the caller's frame, the first error propagates
immediately. -/
def evalArgs (evalFn : ExpressionNode → FunctionFrame → Except String ℚ)
    (frame : FunctionFrame) : List ExpressionNode → Except String (List ℚ)
  | [] => .ok []
  | a :: rest =>
    match evalFn a frame with
    | .error e => .error e
    | .ok v =>
      match evalArgs evalFn frame rest with
      | .error e => .error e
      | .ok vs => .ok (v :: vs)

/-- `fn evaluate_function` — a name bound as a parameter of the current
frame must be used with no arguments; otherwise look up a user function,
validate the argument count, evaluate the arguments in the caller's frame,
check the caller's recursion counter against the ceiling, and evaluate the
body in a new frame with counter + 1. -/
def evaluate_function (evalFn : ExpressionNode → FunctionFrame → Except String ℚ)
    (ctx : Context) (name : String) (args : List ExpressionNode)
    (frame : FunctionFrame) : Except String ℚ :=
  match frame.local_names.findIdx? (fun n => n == name) with
  | some which_local =>
    if args.isEmpty then
      match frame.local_values.get? which_local with
      | some v => .ok v
      | none => .error panicIndexMsg
    else
      .error ("Use of " ++ name ++ "() as first class function is not supported.")
  | none =>
    match ctx.functions.find? (fun kv => kv.1 == name) with
    | some kv =>
      if args.length ≠ kv.2.args.length then
        .error ("Wrong number of arguments for " ++ name ++ "(): expected " ++
          toString kv.2.args.length ++ " but got " ++ toString args.length ++ ".")
      else
        match evalArgs evalFn frame args with
        | .error e => .error e
        | .ok child_args =>
          if frame.recursion_count > MAX_RECURSION then
            .error "Excessive recursion."
          else
            evalFn kv.2.expression
              { local_names := kv.2.args, local_values := child_args,
                recursion_count := frame.recursion_count + 1 }
    | none => .error ("Unknown value " ++ name ++ ".")

/-- `fn eval` — recursive tree-walking evaluator; one structural recursion
on fuel, handing itself (at the next smaller fuel) to the operator and
function dispatchers. -/
def eval : Nat → ExpressionNode → Context → FunctionFrame → Except String ℚ
  | 0, _, _, _ => .error "Evaluator fuel exhausted."
  | fuel + 1, e, ctx, frame =>
    match e with
    | .Constant value => .ok value
    | .Operator op args =>
      evaluate_operator (fun e2 fr2 => eval fuel e2 ctx fr2) op args frame
    | .Function name args =>
      evaluate_function (fun e2 fr2 => eval fuel e2 ctx fr2) ctx name args frame

/-- `pub fn evaluate` — root frame with no locals and recursion depth 0.
The fuel bounds the depth of `eval` nesting; `MAX_RECURSION` caps the
user-call depth at 257 frames and each frame nests only a few `eval`
levels, so 100000 is unreachable. -/
def evaluate (expression : ExpressionNode) (ctx : Context) : Except String ℚ :=
  eval 100000 expression ctx ⟨[], [], 0⟩

/-- Parse a line and evaluate it, as the tests' `do_eval` does. -/
def evaluateString (s : String) (ctx : Context) : Except String ℚ :=
  match parseString s with
  | .ok e => evaluate e ctx
  | .error e => .error e

/-- Validation of the parameter list in
`fn deconstruct_function_definition`: every argument of the left-hand side
must itself be a zero-argument Function node (a bare name). -/
def argNames : List ExpressionNode → Option (List String)
  | [] => some []
  | .Function n [] :: rest =>
    match argNames rest with
    | some names => some (n :: names)
    | none => none
  | _ => none

/-- `pub fn deconstruct_function_definition` — an `x=y` or `f(x,...)=y` tree
is rearranged into a user-defined function (name, parameter names, body);
any other shape yields `None`. -/
def deconstruct_function_definition (e : ExpressionNode) :
    Option (Function × String) :=
  match e with
  | .Operator op [x, y] =>
    if op.name = "=" then
      match x with
      | .Function function_name function_args =>
        match argNames function_args with
        | some names => some (⟨y, names⟩, function_name)
        | none => none
      | _ => none
    else none
  | _ => none

/-- Parse a definition line and insert the resulting function into a
context, as the tests' `define_function` does. -/
def define_function (s : String) (ctx : Context) : Context :=
  match parseString s with
  | .ok e =>
    match deconstruct_function_definition e with
    | some (function, function_name) => ⟨(function_name, function) :: ctx.functions⟩
    | none => ctx
  | .error _ => ctx

/-- The context of the repo's `recursion` test: the factorial function. -/
def factorialContext : Context :=
  define_function "factorial(n) = n>1 ? n * factorial(n-1) : 1" emptyContext

/-! ## Invariant predicates -/

mutual

/-- The arity invariant: every Operator node of the tree carries exactly as
many children as its descriptor's arity. -/
def nodeOk : ExpressionNode → Bool
  | .Constant _ => true
  | .Operator op args => decide (args.length = op.arity) && nodeOkList args
  | .Function _ args => nodeOkList args

def nodeOkList : List ExpressionNode → Bool
  | [] => true
  | e :: rest => nodeOk e && nodeOkList rest

end

/-- The arity invariant on the optional current-value slot. -/
def optOk : Option ExpressionNode → Bool
  | none => true
  | some e => nodeOk e

/-- The arity invariant on the pending left operands of the operator
stack. -/
def stackOk : List (Operator × Option ExpressionNode) → Bool
  | [] => true
  | entry :: rest => optOk entry.2 && stackOk rest

/-- The arity invariant on a whole parser state. -/
def parserOk (p : Parser) : Bool := optOk p.current && stackOk p.stack

/-- An expression that is not an Operator node tagged `:` (the shapes on
which ternary fusion cannot fire). -/
def not_colon_node : ExpressionNode → Prop
  | .Operator c _ => c.name ≠ ":"
  | _ => True

/-! ## Theorems -/

/-! Preservation of the arity invariant through the parser (claim C2). -/

theorem nodeOkList_append (l1 l2 : List ExpressionNode) :
    nodeOkList (l1 ++ l2) = (nodeOkList l1 && nodeOkList l2) := by
  induction l1 with
  | nil => simp [nodeOkList]
  | cons e rest ih => simp [nodeOkList, ih, Bool.and_assoc]

theorem optOk_none : optOk none = true := rfl

theorem optOk_some (e : ExpressionNode) : optOk (some e) = nodeOk e := rfl

theorem stackOk_nil : stackOk [] = true := rfl

theorem stackOk_cons (entry : Operator × Option ExpressionNode)
    (rest : List (Operator × Option ExpressionNode)) :
    stackOk (entry :: rest) = (optOk entry.2 && stackOk rest) := rfl

theorem parserOk_def (p : Parser) :
    parserOk p = (optOk p.current && stackOk p.stack) := rfl

theorem bt_ok (op : Operator) (x y : ExpressionNode) (h2 : op.arity = 2)
    (hx : nodeOk x = true) (hy : nodeOk y = true) :
    nodeOk (binary_or_ternary op x y) = true := by
  have hbin : nodeOk (.Operator op [x, y]) = true := by
    simp [nodeOk, nodeOkList, h2, hx, hy]
  cases y with
  | Constant v =>
    rw [binary_or_ternary.eq_3 op x _ (by intro y_op y_args h; exact ExpressionNode.noConfusion h)]
    exact hbin
  | Function n args =>
    rw [binary_or_ternary.eq_3 op x _ (by intro y_op y_args h; exact ExpressionNode.noConfusion h)]
    exact hbin
  | Operator c args =>
    rcases args with _ | ⟨a, _ | ⟨b, t⟩⟩
    · rw [binary_or_ternary.eq_2 op x c []
        (by intro a b tail h; exact List.noConfusion h), ite_self]
      exact hbin
    · rw [binary_or_ternary.eq_2 op x c [a]
        (by intro a2 b tail h; injection h with h1 h2; exact List.noConfusion h2), ite_self]
      exact hbin
    · rw [binary_or_ternary.eq_1]
      by_cases hq : op.name = "?" ∧ c.name = ":"
      · rw [if_pos hq]
        have ha : nodeOk a = true ∧ nodeOk b = true := by
          simp only [nodeOk, nodeOkList, Bool.and_eq_true] at hy
          exact ⟨hy.2.1, hy.2.2.1⟩
        simp [nodeOk, nodeOkList, TERNARY, make_op_lazy, make_op, hx, ha.1, ha.2]
      · rw [if_neg hq]
        exact hbin

theorem reduce_unary_ok (stack_op : Operator) (current stack_value : Option ExpressionNode)
    (n : ExpressionNode) (h1 : stack_op.arity = 1) (hc : optOk current = true)
    (h : reduce_unary stack_op current stack_value = .ok n) : nodeOk n = true := by
  rcases current with _ | c <;> rcases stack_value with _ | s
  · simp [reduce_unary] at h
  · simp [reduce_unary] at h
  · have hn : ExpressionNode.Operator stack_op [c] = n := by
      injection h
    subst hn
    have hcc : nodeOk c = true := hc
    simp [nodeOk, nodeOkList, h1, hcc]
  · simp [reduce_unary] at h

theorem reduce_binary_ok (stack_op : Operator) (current stack_value : Option ExpressionNode)
    (n : ExpressionNode) (h2 : stack_op.arity = 2) (hc : optOk current = true)
    (hv : optOk stack_value = true)
    (h : reduce_binary stack_op current stack_value = .ok n) : nodeOk n = true := by
  rcases current with _ | c <;> rcases stack_value with _ | s
  · simp [reduce_binary] at h
  · simp [reduce_binary] at h
  · simp [reduce_binary] at h
  · have hn : binary_or_ternary stack_op s c = n := by
      injection h
    subst hn
    exact bt_ok stack_op s c h2 hv hc

theorem reduce_ok (op : Operator) (stack : List (Operator × Option ExpressionNode)) :
    ∀ (current c2 : Option ExpressionNode)
      (s2 : List (Operator × Option ExpressionNode)) (early : Bool),
    optOk current = true → stackOk stack = true →
    reduce op current stack = .ok (c2, s2, early) →
    optOk c2 = true ∧ stackOk s2 = true := by
  induction stack with
  | nil =>
    intro current c2 s2 early hc hs hred
    rw [reduce] at hred
    injection hred with h
    injection h with h1 h2
    injection h2 with h2a h2b
    subst h1; subst h2a
    exact ⟨hc, hs⟩
  | cons entry rest ih =>
    intro current c2 s2 early hc hs hred
    obtain ⟨stack_op, stack_value⟩ := entry
    have hsv : optOk stack_value = true ∧ stackOk rest = true := by
      simpa [stackOk_cons, Bool.and_eq_true] using hs
    rw [reduce] at hred
    split at hred
    · -- incoming unary operator stops the reduction
      injection hred with h
      injection h with h1 h2
      injection h2 with h2a h2b
      subst h1; subst h2a
      exact ⟨hc, hs⟩
    · split at hred
      · -- precedence comparison stops the reduction
        injection hred with h
        injection h with h1 h2
        injection h2 with h2a h2b
        subst h1; subst h2a
        exact ⟨hc, hs⟩
      · split at hred
        · -- arity 1: pop, apply the unary step, continue reducing
          rename_i harity
          split at hred
          · exact absurd hred (by simp)
          · rename_i n hstep
            exact ih (some n) c2 s2 early
              (reduce_unary_ok stack_op current stack_value n harity hc hstep)
              hsv.2 hred
        · split at hred
          · -- arity 2: pop, apply the binary step, continue reducing
            rename_i harity1 harity2
            split at hred
            · exact absurd hred (by simp)
            · rename_i n hstep
              exact ih (some n) c2 s2 early
                (reduce_binary_ok stack_op current stack_value n harity2 hc hsv.1 hstep)
                hsv.2 hred
          · -- parenthesis fence
            split at hred
            · exact absurd hred (by simp)
            · split at hred
              · split at hred
                · exact absurd hred (by simp)
                · injection hred with h
                  injection h with h1 h2
                  injection h2 with h2a h2b
                  subst h1; subst h2a
                  exact ⟨hc, hsv.2⟩
              · exact ih current c2 s2 early hc hsv.2 hred

theorem push_constant_ok (value : ℚ) (p p2 : Parser) (hp : parserOk p = true)
    (h : push_constant value p = .ok p2) : parserOk p2 = true := by
  rw [push_constant] at h
  split at h
  · exact absurd h (by simp)
  · injection h with h1
    subst h1
    have hs : stackOk p.stack = true := by
      simp only [parserOk_def, Bool.and_eq_true] at hp
      exact hp.2
    simp [parserOk_def, optOk_some, nodeOk, hs]

theorem push_operator_finish_ok (op : Operator) (p p2 : Parser)
    (hp : parserOk p = true) (h : push_operator_finish op p = .ok p2) :
    parserOk p2 = true := by
  have hc : optOk p.current = true ∧ stackOk p.stack = true := by
    simpa [parserOk_def, Bool.and_eq_true] using hp
  rw [push_operator_finish] at h
  split at h
  · split at h
    · exact absurd h (by simp)
    · injection h with h1
      subst h1
      exact hp
  · injection h with h1
    subst h1
    simp [parserOk_def, optOk_none, stackOk_cons, hc.1, hc.2]

theorem push_operator_sub_ok (op : Operator) (p p2 : Parser) (hp : parserOk p = true)
    (h : push_operator_sub op p = .ok p2) : parserOk p2 = true := by
  have hc : optOk p.current = true ∧ stackOk p.stack = true := by
    simpa [parserOk_def, Bool.and_eq_true] using hp
  rw [push_operator_sub] at h
  split at h
  · -- the reduce loop ran
    split at h
    · exact absurd h (by simp)
    · rename_i current stack hred
      injection h with h1
      subst h1
      have hok := reduce_ok op p.stack p.current current stack true hc.1 hc.2 hred
      simp [parserOk_def, hok.1, hok.2]
    · rename_i current stack hred
      have hok := reduce_ok op p.stack p.current current stack false hc.1 hc.2 hred
      refine push_operator_finish_ok op _ _ ?_ h
      simp [parserOk_def, hok.1, hok.2]
  · exact push_operator_finish_ok op p p2 hp h

theorem push_operator_ok (op : Operator) (p p2 : Parser) (hp : parserOk p = true)
    (h : push_operator op p = .ok p2) : parserOk p2 = true := by
  rw [push_operator] at h
  exact push_operator_sub_ok _ p p2 hp h

theorem resolve_symbol_ok (symbol : String) (args : List ExpressionNode)
    (node : ExpressionNode) (hargs : nodeOkList args = true)
    (h : resolve_symbol symbol args = .ok node) : nodeOk node = true := by
  rw [resolve_symbol] at h
  split at h
  · split at h
    · exact absurd h (by simp)
    · rename_i op hfind hlen
      injection h with h1
      subst h1
      simp only [Decidable.not_not] at hlen
      simp [nodeOk, hlen, hargs]
  · injection h with h1
    subst h1
    simp [nodeOk, hargs]

theorem finishParse_ok (p : Parser) (tokens : List Tok) (e : ExpressionNode)
    (rest : List Tok) (hp : parserOk p = true)
    (h : finishParse p tokens = .ok (e, rest)) : nodeOk e = true := by
  rw [finishParse] at h
  split at h
  · exact absurd h (by simp)
  · split at h
    · exact absurd h (by simp)
    · rename_i p2 hpush
      have hp2 : parserOk p2 = true := push_operator_ok _ _ _ hp hpush
      split at h
      · rename_i entry result heq
        injection h with h1
        injection h1 with h1a h1b
        subst h1a
        have hs : stackOk p2.stack = true := by
          simp only [parserOk_def, Bool.and_eq_true] at hp2
          exact hp2.2
        rw [heq] at hs
        simp only [stackOk_cons, stackOk_nil, Bool.and_eq_true] at hs
        simpa [optOk_some] using hs.1
      · exact absurd h (by simp)
      · exact absurd h (by simp)

theorem argsLoop_ok (parseFn : List Tok → Except String (ExpressionNode × List Tok))
    (hpf : ∀ toks e rest, parseFn toks = .ok (e, rest) → nodeOk e = true) :
    ∀ (n : Nat) (acc : List ExpressionNode) (toks : List Tok)
      (args : List ExpressionNode) (rest : List Tok),
    nodeOkList acc = true → argsLoop parseFn n acc toks = .ok (args, rest) →
    nodeOkList args = true := by
  intro n
  induction n with
  | zero =>
    intro acc toks args rest hacc h
    rw [argsLoop] at h
    exact absurd h (by simp)
  | succ n ih =>
    intro acc toks args rest hacc h
    rw [argsLoop] at h
    split at h
    · injection h with h1
      injection h1 with h1a h1b
      subst h1a
      exact hacc
    · split at h
      · exact absurd h (by simp)
      · rename_i arg rest2 hparse
        refine ih _ _ args rest ?_ h
        have harg : nodeOk arg = true := hpf _ _ _ hparse
        simp [nodeOkList_append, nodeOkList, hacc, harg]

theorem parse_arguments_ok
    (parseFn : List Tok → Except String (ExpressionNode × List Tok))
    (hpf : ∀ toks e rest, parseFn toks = .ok (e, rest) → nodeOk e = true)
    (fuel : Nat) (tokens : List Tok) (args : List ExpressionNode) (rest : List Tok)
    (h : parse_arguments parseFn fuel tokens = .ok (args, rest)) :
    nodeOkList args = true := by
  rw [parse_arguments] at h
  split at h
  · exact argsLoop_ok parseFn hpf fuel [] _ args rest (by simp [nodeOkList]) h
  · injection h with h1
    injection h1 with h1a h1b
    subst h1a
    simp [nodeOkList]

theorem parseLoop_ok :
    ∀ (fuel : Nat) (p : Parser) (tokens : List Tok) (is_nested : Bool)
      (e : ExpressionNode) (rest : List Tok),
    parserOk p = true → parseLoop fuel p tokens is_nested = .ok (e, rest) →
    nodeOk e = true := by
  intro fuel
  induction fuel with
  | zero =>
    intro p tokens is_nested e rest hp h
    rw [parseLoop] at h
    exact absurd h (by simp)
  | succ fuel ih =>
    intro p tokens is_nested e rest hp h
    have hinit : ∀ toks e2 rest2,
        parseLoop fuel { current := none, stack := [] } toks true = .ok (e2, rest2) →
        nodeOk e2 = true := by
      intro toks e2 rest2 hparse
      exact ih _ toks true e2 rest2 (by simp [parserOk_def, optOk_none, stackOk_nil]) hparse
    rw [parseLoop, parseLoopBody.eq_def] at h
    split at h
    · exact finishParse_ok _ _ _ _ hp h
    · split at h
      · exact absurd h (by simp)
      · exact absurd h (by simp)
      · -- Number token
        split at h
        · exact absurd h (by simp)
        · rename_i p2 hpush
          exact ih _ _ _ _ _ (push_constant_ok _ _ _ hp hpush) h
      · exact absurd h (by simp)
      · -- Text token
        split at h
        · exact absurd h (by simp)
        · split at h
          · exact absurd h (by simp)
          · rename_i hcur args rest2 hargs
            split at h
            · exact absurd h (by simp)
            · rename_i node hnode
              have hargsok : nodeOkList args = true :=
                parse_arguments_ok _ hinit fuel _ args rest2 hargs
              have hnodeok : nodeOk node = true :=
                resolve_symbol_ok _ _ _ hargsok hnode
              refine ih _ _ _ _ _ ?_ h
              have hs : stackOk p.stack = true := by
                simp only [parserOk_def, Bool.and_eq_true] at hp
                exact hp.2
              simp [parserOk_def, optOk_some, hnodeok, hs]
      · -- Operator token
        split at h
        · exact absurd h (by simp)
        · rename_i p2 hpush
          exact ih _ _ _ _ _ (push_operator_ok _ _ _ hp hpush) h

/-- C2: for every token sequence on which `parse` succeeds, every Operator
node of the returned tree — including the internally substituted unary
negate and the fused ternary node — carries a children list whose length
equals its descriptor's arity. -/
theorem claim_C2 :
    ∀ (fuel : Nat) (tokens : List Tok) (is_nested : Bool)
      (e : ExpressionNode) (rest : List Tok),
    parse fuel tokens is_nested = .ok (e, rest) → nodeOk e = true := by
  intro fuel tokens is_nested e rest h
  exact parseLoop_ok fuel _ tokens is_nested e rest
    (by simp [parserOk_def, optOk_none, stackOk_nil]) h

/-- C2 witness: the invariant instantiated on the parse of `1?2:3`, whose
result is the fused 3-ary ternary node. -/
theorem claim_C2_witness :
    nodeOk (.Operator TERNARY [.Constant 1, .Constant 2, .Constant 3]) = true :=
  claim_C2 100 (tokenize "1?2:3") false
    (.Operator TERNARY [.Constant 1, .Constant 2, .Constant 3]) []
    (by with_unfolding_all rfl)

/-- C1: for every documented input the parser produces the documented tree
shape: `1+2*3` → `+(1,*(2,3))` and `(1+2)*3` → `*(+(1,2),3)` (precedence and
parenthesised grouping); `1-2-3` → `-(-(1,2),3)` (left-associative chains
reduce left to right); `-1-2` → `-(-(1),2)` and `1--2` → `-(1,-(2))` (a
subtract arriving on an empty current-value slot becomes unary negate). -/
theorem claim_C1 :
    parseShape "1+2*3" = .ok (.node "+" [.num 1, .node "*" [.num 2, .num 3]]) ∧
    parseShape "(1+2)*3" = .ok (.node "*" [.node "+" [.num 1, .num 2], .num 3]) ∧
    parseShape "1-2-3" = .ok (.node "-" [.node "-" [.num 1, .num 2], .num 3]) ∧
    parseShape "-1-2" = .ok (.node "-" [.node "-" [.num 1], .num 2]) ∧
    parseShape "1--2" = .ok (.node "-" [.num 1, .node "-" [.num 2]]) :=
  ⟨by with_unfolding_all rfl, by with_unfolding_all rfl, by with_unfolding_all rfl,
   by with_unfolding_all rfl, by with_unfolding_all rfl⟩

/-- C3: a Lazy operator evaluates only its first child and applies its
selector to that value: selector 0 returns the first child's value with no
further evaluation, and i > 0 evaluates and returns the i-th child;
consequently `1 || undefined_function_call()` succeeds (the unevaluated
second operand raises no unknown-value error) and `0 && 42` returns 0
without the second operand being evaluated (both hold for every shape of
the remaining operands, which the result provably never depends on). -/
theorem claim_C3 :
    (∀ (evalFn : ExpressionNode → FunctionFrame → Except String ℚ)
        (op : Operator) (sel : ℚ → Nat) (a : ExpressionNode)
        (rest : List ExpressionNode) (frame : FunctionFrame) (v : ℚ),
      op.function = OpFunction.Lazy sel → evalFn a frame = .ok v →
      (sel v = 0 → evaluate_operator evalFn op (a :: rest) frame = .ok v) ∧
      (∀ target : ExpressionNode, sel v ≠ 0 →
        (a :: rest)[sel v]? = some target →
        evaluate_operator evalFn op (a :: rest) frame = evalFn target frame)) ∧
    evaluateString "1 || undefined_function_call()" emptyContext = .ok 1 ∧
    evaluateString "0 && 42" emptyContext = .ok 0 := by
  refine ⟨?_, by with_unfolding_all rfl, by with_unfolding_all rfl⟩
  intro evalFn op sel a rest frame v hop hv
  constructor
  · intro h0
    simp [evaluate_operator, hop, hv, h0]
  · intro target hne hget
    simp [evaluate_operator, hop, hv, hne, hget]

/-- C3 witness: the general Lazy dispatch applied to the `||` descriptor at
first operand value 1 (selector picks index 0). -/
theorem claim_C3_witness :
    evaluate_operator (fun _ _ => Except.ok (1 : ℚ))
      (make_op_lazy "||" .LogicalOr 2 or_selector)
      [ExpressionNode.Constant 1, ExpressionNode.Constant 2] ⟨[], [], 0⟩ = .ok 1 :=
  (claim_C3.1 (fun _ _ => Except.ok 1) (make_op_lazy "||" .LogicalOr 2 or_selector)
    or_selector (ExpressionNode.Constant 1) [ExpressionNode.Constant 2] ⟨[], [], 0⟩ 1
    rfl rfl).1 (by with_unfolding_all rfl)

set_option maxRecDepth 1000000 in
/-- C4: with `factorial(n) = n>1 ? n*factorial(n-1) : 1` registered,
`factorial(10)` evaluates to 3628800 while `factorial(1000)` fails with
exactly `Excessive recursion.`: whenever the caller's recursion counter
(copied and incremented on each call) exceeds the fixed ceiling of 256, the
evaluation of a user-function call stops with that catchable error value
before descending into the body. -/
theorem claim_C4 :
    MAX_RECURSION = 256 ∧
    (∀ (evalFn : ExpressionNode → FunctionFrame → Except String ℚ)
        (ctx : Context) (name : String) (args : List ExpressionNode)
        (frame : FunctionFrame) (kv : String × Function) (vals : List ℚ),
      frame.local_names.findIdx? (fun n => n == name) = none →
      ctx.functions.find? (fun kv2 => kv2.1 == name) = some kv →
      args.length = kv.2.args.length →
      evalArgs evalFn frame args = .ok vals →
      frame.recursion_count > MAX_RECURSION →
      evaluate_function evalFn ctx name args frame = .error "Excessive recursion.") ∧
    evaluateString "factorial(10)" factorialContext = .ok 3628800 ∧
    evaluateString "factorial(1000)" factorialContext = .error "Excessive recursion." := by
  refine ⟨rfl, ?_, by with_unfolding_all rfl, by with_unfolding_all rfl⟩
  intro evalFn ctx name args frame kv vals hlocal hfind hlen hargs hcount
  simp [evaluate_function, hlocal, hfind, hlen, hargs, hcount]

/-- C4 witness: a frame whose recursion counter stands at 257 makes a call
to a registered one-parameter function fail with the exact error. -/
theorem claim_C4_witness :
    evaluate_function (fun _ _ => Except.ok (1 : ℚ))
      ⟨[("f", ⟨ExpressionNode.Constant 7, ["n"]⟩)]⟩ "f"
      [ExpressionNode.Constant 5] ⟨[], [], 257⟩ = .error "Excessive recursion." :=
  claim_C4.2.1 (fun _ _ => Except.ok 1) ⟨[("f", ⟨ExpressionNode.Constant 7, ["n"]⟩)]⟩
    "f" [ExpressionNode.Constant 5] ⟨[], [], 257⟩
    ("f", ⟨ExpressionNode.Constant 7, ["n"]⟩) [1]
    rfl rfl rfl rfl (by decide)

/-- C5: reducing a binary `?` whose already-reduced right operand is an
Operator node tagged `:` merges the three operands into one fused ternary
node — `1?2:3` → `?:(1,2,3)` and `1==2?3+4:5` → `?:(==(1,2),+(3,4),5)` —
while a `?` whose right operand is not a `:` node stays an ordinary binary
node. -/
theorem claim_C5 :
    (∀ (op cop : Operator) (x a b : ExpressionNode) (extra : List ExpressionNode),
      op.name = "?" → cop.name = ":" →
      binary_or_ternary op x (.Operator cop (a :: b :: extra)) =
        .Operator TERNARY [x, a, b]) ∧
    (∀ (op : Operator) (x y : ExpressionNode), op.name = "?" → not_colon_node y →
      binary_or_ternary op x y = .Operator op [x, y]) ∧
    parseShape "1?2:3" = .ok (.node "?:" [.num 1, .num 2, .num 3]) ∧
    parseShape "1==2?3+4:5" =
      .ok (.node "?:" [.node "==" [.num 1, .num 2], .node "+" [.num 3, .num 4], .num 5]) := by
  refine ⟨?_, ?_, by with_unfolding_all rfl, by with_unfolding_all rfl⟩
  · intro op cop x a b extra hop hcop
    simp [binary_or_ternary, hop, hcop]
  · intro op x y hop hy
    cases y with
    | Constant v => simp [binary_or_ternary]
    | Operator c args =>
      have hc : c.name ≠ ":" := hy
      simp [binary_or_ternary, hc]
    | Function n args => simp [binary_or_ternary]

/-- C5 witness: the fusion equation applied to concrete `?` and `:`
descriptors and constant operands, and the no-fusion equation applied to a
constant right operand. -/
theorem claim_C5_witness :
    binary_or_ternary (make_op_invalid "?" .Ternary 2 true)
      (.Constant 1) (.Operator (make_op_invalid ":" .Ternary 2 true)
        [.Constant 2, .Constant 3]) =
      .Operator TERNARY [.Constant 1, .Constant 2, .Constant 3] ∧
    binary_or_ternary (make_op_invalid "?" .Ternary 2 true)
      (.Constant 1) (.Constant 2) =
      .Operator (make_op_invalid "?" .Ternary 2 true) [.Constant 1, .Constant 2] :=
  ⟨claim_C5.1 (make_op_invalid "?" .Ternary 2 true) (make_op_invalid ":" .Ternary 2 true)
      (.Constant 1) (.Constant 2) (.Constant 3) [] rfl rfl,
   claim_C5.2.1 (make_op_invalid "?" .Ternary 2 true) (.Constant 1) (.Constant 2)
      rfl trivial⟩

/-- C6 counterexample: the remainder does NOT share the sign of the divisor
in general — at the finite operands x = 16.5 and nonzero y = -5.25 (all
arithmetic exact), `16.5 % -5.25` evaluates to 0.75, which is positive
while the divisor is negative. -/
theorem claim_C6_cex :
    evaluateString "16.5 % -5.25" emptyContext = .ok (3/4) ∧
    rem_euclid_q (33/2) (-(21/4)) = 3/4 ∧
    (0 : ℚ) < 3/4 ∧ (-(21/4) : ℚ) < 0 :=
  ⟨by with_unfolding_all rfl, by with_unfolding_all rfl, by norm_num, by norm_num⟩

/-- The truncation toward zero differs from its argument by less than 1. -/
theorem rtrunc_abs_lt (q : ℚ) : |q - (rtrunc q : ℚ)| < 1 := by
  unfold rtrunc
  rcases le_or_lt 0 q with h | h
  · rw [if_pos h]
    have h1 : (⌊q⌋ : ℚ) ≤ q := Int.floor_le q
    have h2 : q < ⌊q⌋ + 1 := Int.lt_floor_add_one q
    rw [abs_lt]
    constructor <;> linarith
  · rw [if_neg (not_le.mpr h)]
    have h1 : q ≤ (⌈q⌉ : ℚ) := Int.le_ceil q
    have h2 : (⌈q⌉ : ℚ) < q + 1 := Int.ceil_lt_add_one q
    rw [abs_lt]
    constructor <;> linarith

/-- C6 (amended): for nonzero y the `%` operator computes the remainder
with Euclidean semantics, whose result is nonnegative — rather than sharing
the sign of the divisor — and in particular `-16.5 % 5.25` evaluates to
exactly 4.5.  (Nonnegativity is the only bound asserted: it is preserved by
the one f64 rounding the model elides, while a strict upper bound would
not be — see `rem_euclid_q`.) -/
theorem claim_C6 :
    (∀ x y : ℚ, y ≠ 0 → 0 ≤ rem_euclid_q x y) ∧
    evaluateString "-16.5 % 5.25" emptyContext = .ok (9/2) := by
  refine ⟨?_, by with_unfolding_all rfl⟩
  intro x y hy
  have hyabs : (0 : ℚ) < |y| := abs_pos.mpr hy
  have hr : x - (rtrunc (x / y) : ℚ) * y = (x / y - (rtrunc (x / y) : ℚ)) * y := by
    field_simp
    ring
  have habs : |x - (rtrunc (x / y) : ℚ) * y| < |y| := by
    rw [hr, abs_mul]
    calc |x / y - (rtrunc (x / y) : ℚ)| * |y| < 1 * |y| :=
          mul_lt_mul_of_pos_right (rtrunc_abs_lt (x / y)) hyabs
      _ = |y| := one_mul _
  rcases abs_lt.mp habs with ⟨hlo, hhi⟩
  unfold rem_euclid_q
  dsimp only
  split
  · linarith
  · linarith

/-- C6 witness: nonnegativity of the Euclidean remainder at x = -16.5,
y = 5.25. -/
theorem claim_C6_witness :
    (0 : ℚ) ≤ rem_euclid_q (-(33/2)) (21/4) :=
  claim_C6.1 (-(33/2)) (21/4) (by norm_num)

/-- C7 counterexample: `0x100000000` does not overflow — it tokenizes to
the unsigned integer 2^32 = 4294967296 with no error at all, and in
particular never produces the claimed 32-bit overflow message. -/
theorem claim_C7_cex :
    tokenize "0x100000000" = [.ok (Token.Integer 4294967296)] ∧
    tokenize "0x100000000" ≠
      [.error ("Base " ++ toString 16 ++ " constant overflowed 32 bit range.")] := by
  have h : tokenize "0x100000000" = [.ok (Token.Integer 4294967296)] := by
    with_unfolding_all rfl
  refine ⟨h, ?_⟩
  rw [h]
  intro hcontra
  simp at hcontra

/-- C7 (amended): a literal beginning with exactly `0b` or `0x` is read
greedily as an unsigned integer in base 2 or 16 into a 64-bit accumulator;
a value not fitting in 64 bits — for example `0x10000000000000000` — yields
the error `Base <n> constant overflowed 64 bit range` (citing the base,
with no trailing period), while `0x100000000` fits and tokenizes to
4294967296. -/
theorem claim_C7 :
    tokenize "0x100000000" = [.ok (Token.Integer 4294967296)] ∧
    tokenize "0xDeadBeef" = [.ok (Token.Integer 3735928559)] ∧
    tokenize "0b01101100" = [.ok (Token.Integer 108)] ∧
    tokenize "0xffffffffffffffff" = [.ok (Token.Integer 18446744073709551615)] ∧
    tokenize "0x10000000000000000" =
      [.error "Base 16 constant overflowed 64 bit range"] ∧
    tokenize "0b10000000000000000000000000000000000000000000000000000000000000000" =
      [.error "Base 2 constant overflowed 64 bit range"] :=
  ⟨by with_unfolding_all rfl, by with_unfolding_all rfl, by with_unfolding_all rfl,
   by with_unfolding_all rfl, by with_unfolding_all rfl, by with_unfolding_all rfl⟩

/-- C8 (code bug): the bareword reader accepts only alphabetic characters
and underscores, so `log2` tokenizes as the Text token `log` followed by
the Number 2 instead of one Text token — although the registry itself
offers callable names containing digits (`log2`, `i8`, ...), which this
makes unreachable, and the crate's own evaluator tests call them. -/
theorem claim_C8_bug :
    tokenize "log2" = [.ok (Token.Text "log"), .ok (Token.Number 2)] ∧
    tokenize "i8" = [.ok (Token.Text "i"), .ok (Token.Number 8)] ∧
    (find_operator "log2").isSome = true ∧
    (find_operator "i8").isSome = true :=
  ⟨by with_unfolding_all rfl, by with_unfolding_all rfl,
   by with_unfolding_all rfl, by with_unfolding_all rfl⟩

/-- C9 counterexample: the invalid-numeric-constant message carries no
terminal period — tokenizing `3ee2` yields exactly
`Invalid numeric constant '3ee2'`, which differs from the claimed
`Invalid numeric constant '3ee2'.`. -/
theorem claim_C9_cex :
    tokenize "3ee2" = [.error ("Invalid numeric constant " ++ sq ++ "3ee2" ++ sq)] ∧
    ("Invalid numeric constant " ++ sq ++ "3ee2" ++ sq) ≠
      ("Invalid numeric constant " ++ sq ++ "3ee2" ++ sq ++ ".") :=
  ⟨by with_unfolding_all rfl, by with_unfolding_all decide⟩

/-- C9 (amended): when the accumulated decimal slice fails to parse as a
floating value, tokenization yields exactly the error
`Invalid numeric constant '<slice>'` — the offending slice quoted verbatim,
with no terminal period. -/
theorem claim_C9 :
    tokenize "3ee2" = [.error ("Invalid numeric constant " ++ sq ++ "3ee2" ++ sq)] ∧
    tokenize "3..14" = [.error ("Invalid numeric constant " ++ sq ++ "3..14" ++ sq)] :=
  ⟨by with_unfolding_all rfl, by with_unfolding_all rfl⟩

/-- C10: the shift operators truncate the left operand through a 64-bit
signed integer to 32 bits (`<<` and `>>>` on the signed reinterpretation,
`>>` on the unsigned one) and mask the truncated right operand with 31, so
the shift count is always below 32 and shifting by 32 equals shifting by 0
(`1 << 32` evaluates to 1); `>>` is a zero-filling logical right shift
(result always nonnegative) and `>>>` an arithmetic right shift preserving
the sign of the truncated operand. -/
theorem claim_C10 :
    (∀ x : ℚ, op_shl_fn x 32 = op_shl_fn x 0 ∧ op_shr_fn x 32 = op_shr_fn x 0 ∧
      op_sar_fn x 32 = op_sar_fn x 0) ∧
    (∀ y : ℚ, shift_amount y < 32) ∧
    (∀ x y : ℚ, 0 ≤ op_shr_fn x y) ∧
    (∀ x y : ℚ, (to_int x < 0 → op_sar_fn x y < 0) ∧
      (0 ≤ to_int x → 0 ≤ op_sar_fn x y)) ∧
    evaluateString "1 << 32" emptyContext = .ok 1 ∧
    evaluateString "1 << -1" emptyContext = .ok (-2147483648) := by
  have h32 : shift_amount (32 : ℚ) = 0 := by with_unfolding_all rfl
  have h0 : shift_amount (0 : ℚ) = 0 := by with_unfolding_all rfl
  refine ⟨?_, ?_, ?_, ?_, by with_unfolding_all rfl, by with_unfolding_all rfl⟩
  · intro x
    refine ⟨?_, ?_, ?_⟩ <;> simp [op_shl_fn, op_shr_fn, op_sar_fn, h32, h0]
  · intro y
    unfold shift_amount
    have h1 : 0 ≤ Int.emod (to_int y) 32 := Int.emod_nonneg _ (by norm_num)
    have h2 : Int.emod (to_int y) 32 < 32 := Int.emod_lt_of_pos _ (by norm_num)
    omega
  · intro x y
    unfold op_shr_fn
    have h1 : (0 : ℤ) ≤ to_uint x := Int.emod_nonneg _ (by norm_num)
    have h2 : (0 : ℤ) ≤ Int.ediv (to_uint x) (2 ^ shift_amount y) :=
      Int.ediv_nonneg h1 (by positivity)
    exact_mod_cast h2
  · intro x y
    constructor
    · intro hneg
      unfold op_sar_fn
      have h2 : Int.ediv (to_int x) (2 ^ shift_amount y) < 0 :=
        Int.ediv_neg' hneg (by positivity)
      exact_mod_cast h2
    · intro hpos
      unfold op_sar_fn
      have h2 : (0 : ℤ) ≤ Int.ediv (to_int x) (2 ^ shift_amount y) :=
        Int.ediv_nonneg hpos (by positivity)
      exact_mod_cast h2

/-- C10 witness: the sign behaviour of `>>>` at the truncated operands -5
and 3, and the shift-by-32 collapse at 7. -/
theorem claim_C10_witness :
    op_sar_fn (-5) 3 < 0 ∧ op_shl_fn 7 32 = op_shl_fn 7 0 :=
  ⟨(claim_C10.2.2.2.1 (-5) 3).1 (by with_unfolding_all decide),
   (claim_C10.1 7).1⟩

end Erik
